import Mathlib

/-!
# Verification of `auto_implement_plan.py`

A shallow embedding of the plan-automation script
`auto-implement/scripts/auto_implement_plan.py` together with proofs about
its phase extractor (`parse_plan`), completion classifier
(`_is_phase_completed`), phase driver (`implement_phase`) and run
controller (`run_full_implementation`).

Strings are modelled as `List Char`; Python's `str.split('\n')`,
`'\n'.join`, `in` (substring test), `str.strip()` and the two regular
expressions used by the script are modelled by executable functions below.
-/

namespace AutoImplement

/-! ## Character and string primitives -/

/-- ASCII whitespace, as matched by Python's regex class `\s` and stripped by
`str.strip()` (restricted to the ASCII range; plan documents are ASCII). -/
def isSpaceC (c : Char) : Bool :=
  c = ' ' || c = '\t' || c = '\n' || c = '\r' || c = '\x0b' || c = '\x0c'

/-- Python `content.split('\n')`: split a character list at every newline.
An empty input yields `[[]]`, matching `''.split('\n') == ['']`; the result
always has one part more than the number of newlines, and no part contains
a newline. -/
def splitOnNl : List Char → List (List Char)
  | [] => [[]]
  | c :: cs =>
    let r := splitOnNl cs
    if c = '\n' then [] :: r
    else
      match r with
      | [] => [[c]]
      | l :: ls => (c :: l) :: ls

/-- Python `'\n'.join(lines)`. -/
def joinNl : List (List Char) → List Char
  | [] => []
  | [l] => l
  | l :: ls => l ++ '\n' :: joinNl ls

/-- `startsWith p s`: does `s` start with `p`?  (List-of-characters form.) -/
def startsWithCL : List Char → List Char → Bool
  | [], _ => true
  | _ :: _, [] => false
  | p :: ps, c :: cs => p == c && startsWithCL ps cs

/-- Python's substring test `pat in text`. -/
def containsSub (pat : List Char) : List Char → Bool
  | [] => decide (pat = [])
  | c :: rest => startsWithCL pat (c :: rest) || containsSub pat rest

/-- Drop `p` from the front of `s`, or fail. -/
def dropStartCL : List Char → List Char → Option (List Char)
  | [], s => some s
  | _ :: _, [] => none
  | p :: ps, c :: cs => if p == c then dropStartCL ps cs else none

/-- Python `str.strip()` on ASCII whitespace. -/
def trimC (s : List Char) : List Char :=
  ((s.dropWhile isSpaceC).reverse.dropWhile isSpaceC).reverse

/-- Decimal value of a digit string (Python `int`). -/
def digitsToNat (ds : List Char) : Nat :=
  ds.foldl (fun n c => 10 * n + (c.toNat - 48)) 0

/-! ## The two regular expressions of the script -/

/-- Model of `re.match(r'^## Phase (\d+):\s*(.+?)$', line)` on a single line.

The script only applies this pattern to the parts of `content.split('\n')`,
which contain no newline character.  For such a line the regex matches iff
the line is `"## Phase "`, then one or more digits (group 1), then `':'`,
then a nonempty remainder (`\s*(.+?)$` succeeds on any nonempty
newline-free remainder).  The script then takes `int(group(1))` and
`group(2).strip()`; because `\s*` is greedy and `group(2)` runs to the end
of the line, `group(2).strip()` equals the remainder after the colon
stripped of whitespace on both sides. -/
def headingNumName (line : List Char) : Option (Nat × List Char) :=
  match dropStartCL "## Phase ".data line with
  | none => none
  | some r =>
    let ds := r.takeWhile Char.isDigit
    match r.dropWhile Char.isDigit with
    | ':' :: r3 =>
      if ds = [] then none
      else if r3 = [] then none
      else some (digitsToNat ds, trimC r3)
    | _ => none

/-- A line on which the phase-heading regex matches. -/
def isHeadingLine (line : List Char) : Bool :=
  (headingNumName line).isSome

/-- Expect a literal character at the head of the input. -/
def expectChar (c : Char) : List Char → Option (List Char)
  | [] => none
  | x :: xs => if x = c then some xs else none

/-- Model of `re.match(r'^\s*-\s*\[\s*\]\s*(.+)', line)` viewed as a Boolean
test (the script only asks whether the match succeeds).

The regex matches iff the line is: optional whitespace, `'-'`, optional
whitespace, `'['`, optional whitespace, `']'`, and then — via `\s*(.+)`
with backtracking — at least one further character that `.` can match,
i.e. at least one character other than `'\n'`.  (On the newline-free lines
produced by `split('\n')` this is simply: a nonempty remainder.) -/
def matchesUnchecked (line : List Char) : Bool :=
  (expectChar '-' (line.dropWhile isSpaceC)).elim false (fun r1 =>
    (expectChar '[' (r1.dropWhile isSpaceC)).elim false (fun r2 =>
      (expectChar ']' (r2.dropWhile isSpaceC)).elim false (fun r3 =>
        r3.any (fun c => c != '\n'))))

/-! ## Completion classifier (`_is_phase_completed`) -/

/-- `'#### Automated Verification:'`. -/
def autoMarker : List Char := "#### Automated Verification:".data

/-- `'#### Manual Verification:'`. -/
def manualMarker : List Char := "#### Manual Verification:".data

/-- The line loop of `_is_phase_completed`: `inAuto` is the
`in_automated_section` flag; the function returns the final
`not has_unchecked` (the `break` in the source is an early `false`). -/
def completedScan (inAuto : Bool) : List (List Char) → Bool
  | [] => true
  | line :: rest =>
    if containsSub autoMarker line then completedScan true rest
    else if containsSub manualMarker line then completedScan false rest
    else if inAuto && matchesUnchecked line then false
    else completedScan inAuto rest

/-- `PlanAutomator._is_phase_completed(phase_content)`. -/
def is_phase_completed (content : List Char) : Bool :=
  completedScan false (splitOnNl content)

/-! ## Phase extractor (`parse_plan`) -/

/-- The `Phase` dataclass. -/
structure Phase where
  number : Nat
  name : List Char
  content : List Char
  is_completed : Bool
deriving DecidableEq, Repr

/-- Close a phase record: `'\n'.join(current_content)` becomes the content,
and the completion flag is derived from it, as in `parse_plan`. -/
def mkPhase (num : Nat) (nm : List Char) (body : List (List Char)) : Phase :=
  { number := num, name := nm, content := joinNl body,
    is_completed := is_phase_completed (joinNl body) }

/-- The line loop of `parse_plan`: `cur` is `current_phase` (number and
name of the open phase, if any) and `acc` is `current_content`. -/
def parseGo : Option (Nat × List Char) → List (List Char) → List (List Char) → List Phase
  | none, _, [] => []
  | some (n, nm), acc, [] => [mkPhase n nm acc]
  | cur, acc, line :: rest =>
    match headingNumName line with
    | some (n, nm) =>
      (match cur with
       | none => []
       | some (n0, nm0) => [mkPhase n0 nm0 acc]) ++ parseGo (some (n, nm)) [] rest
    | none =>
      match cur with
      | none => parseGo none acc rest
      | some c => parseGo (some c) (acc ++ [line]) rest

/-- `PlanAutomator.parse_plan`, with the document text passed directly
(the file-system read is outside the model). -/
def parse_plan (content : List Char) : List Phase :=
  parseGo none [] (splitOnNl content)

/-! ## Agent stream and phase driver (`implement_phase`) -/

/-- A content block of an agent message; only `TextBlock`s are examined. -/
inductive Block where
  | text (s : List Char)
  | other
deriving DecidableEq, Repr

/-- A streamed agent message; only `AssistantMessage`s are examined. -/
inductive Message where
  | assistant (content : List Block)
  | other
deriving DecidableEq, Repr

/-- `'Phase'`. -/
def phaseTok : List Char := "Phase".data

/-- `'Complete'`. -/
def completeTok : List Char := "Complete".data

/-- `'Ready for Manual Verification'`. -/
def readyManualTok : List Char := "Ready for Manual Verification".data

/-- The per-text-block update of the `success` flag in `implement_phase`:
`if "Phase" in text and "Complete" in text: success = True` followed by
`if "Ready for Manual Verification" in text: success = True`. -/
def blockStep (success : Bool) (b : Block) : Bool :=
  match b with
  | .text t =>
    let s1 := if containsSub phaseTok t && containsSub completeTok t then true else success
    if containsSub readyManualTok t then true else s1
  | .other => success

/-- The per-message update of the `success` flag in `implement_phase`
(non-assistant messages are only logged). -/
def msgStep (success : Bool) (m : Message) : Bool :=
  match m with
  | .assistant blocks => blocks.foldl blockStep success
  | .other => success

/-- The final value of `success` after `implement_phase` consumes the whole
message stream (it starts at `False`). -/
def streamSuccess (msgs : List Message) : Bool :=
  msgs.foldl msgStep false

/-- Observable outcome of one `implement_phase` call: the returned Boolean
verdict, the number of `query(...)` calls made to the agent collaborator,
and the number of `load_slash_command` template loads performed. -/
structure DriverResult where
  success : Bool
  agentCalls : Nat
  templateLoads : Nat
deriving DecidableEq, Repr

/-- `PlanAutomator.implement_phase(plan_path, phase)`.

`dryRun` is `self.dry_run`; `templateOk` states whether the
`implement_plan` slash-command file exists (`load_slash_command` raises
`FileNotFoundError` otherwise, modelled as `none`); `stream` is the
message sequence the agent collaborator produces for this call.  The
source checks `phase.is_completed` first, then `self.dry_run`, then loads
the template, then makes exactly one `query` call and folds the stream
into the `success` flag. -/
def implement_phase (dryRun templateOk : Bool) (stream : List Message)
    (phase : Phase) : Option DriverResult :=
  if phase.is_completed then some ⟨true, 0, 0⟩
  else if dryRun then some ⟨true, 0, 0⟩
  else if templateOk then some ⟨streamSuccess stream, 1, 1⟩
  else none

/-! ## Run controller (`run_full_implementation`) -/

/-- The environment a run executes in: the dry-run flag, template
availability, and the (deterministic) agent collaborator, giving the
message stream produced when a given phase is driven. -/
structure Env where
  dryRun : Bool
  templateOk : Bool
  streams : Phase → List Message

/-- Python truthiness of the `Optional[int]` phase bounds: `None` and `0`
are falsy, every other integer is truthy. -/
def truthy : Option Int → Bool
  | none => false
  | some n => decide (n ≠ 0)

/-- The phase list after the two `if start_phase: ... if end_phase: ...`
filters of `run_full_implementation`. -/
def filteredPhases (content : List Char) (start_phase end_phase : Option Int) :
    List Phase :=
  let phases := parse_plan content
  let phases :=
    if truthy start_phase then
      phases.filter (fun p => start_phase.getD 0 ≤ (p.number : Int))
    else phases
  if truthy end_phase then
    phases.filter (fun p => (p.number : Int) ≤ end_phase.getD 0)
  else phases

/-- The `for phase in phases` loop of `run_full_implementation`, recorded
as the sequence of phases for which `implement_phase` was invoked:
on a `False` verdict the loop `break`s, and a raised `FileNotFoundError`
(`none`) likewise ends the run after the raising invocation. -/
def runLoop (env : Env) : List Phase → List Phase
  | [] => []
  | p :: rest =>
    match implement_phase env.dryRun env.templateOk (env.streams p) p with
    | none => [p]
    | some r => if r.success then p :: runLoop env rest else [p]

/-- `PlanAutomator.run_full_implementation(plan_path, start_phase,
end_phase)`, observed as the sequence of phases the driver was invoked
for.  An empty parse is reported as an error and runs nothing. -/
def run_full_implementation (env : Env) (content : List Char)
    (start_phase end_phase : Option Int) : List Phase :=
  if parse_plan content = [] then []
  else runLoop env (filteredPhases content start_phase end_phase)

/-- The dry-run environment: `--dry-run` set, no template on disk, and an
agent that is never consulted. -/
def dryEnv : Env :=
  { dryRun := true, templateOk := false, streams := fun _ => [] }

/-- The Boolean verdict the run controller sees for one phase in `env`
(a raised exception counts as not-success: the loop does not continue). -/
def driverVerdict (env : Env) (p : Phase) : Bool :=
  match implement_phase env.dryRun env.templateOk (env.streams p) p with
  | some r => r.success
  | none => false

/-! ## Specification-side definitions

The definitions below restate, in the words of the specification and the
claims, what the extractor, classifier and window filter are supposed to
do; the theorems compare them with the source-derived definitions above. -/

/-- Spec-side phase extraction: the first heading line opens the first
phase; each phase's body is exactly the lines strictly between its heading
and the next heading line (or the end of the document for the last phase);
lines before the first heading belong to no phase; records appear in
document-encounter order. -/
def specPhases : List (List Char) → List Phase
  | [] => []
  | line :: rest =>
    match headingNumName line with
    | none => specPhases rest
    | some (n, nm) =>
      mkPhase n nm (rest.takeWhile (fun l => !isHeadingLine l)) ::
        specPhases (rest.dropWhile (fun l => !isHeadingLine l))
termination_by ls => ls.length
decreasing_by
  · simp only [List.length_cons]
    omega
  · simp only [List.length_cons]
    exact Nat.lt_succ_of_le (List.dropWhile_sublist _).length_le

/-- One step of the section-activation state described by the claims: a
line containing `'#### Automated Verification:'` activates the automated
section, a line containing `'#### Manual Verification:'` deactivates it,
any other line leaves it unchanged. -/
def autoActiveStep (st : Bool) (line : List Char) : Bool :=
  if containsSub autoMarker line then true
  else if containsSub manualMarker line then false
  else st

/-- Is the automated-verification section active when the scanner, started
in state `st`, reaches line `i`? -/
def autoActiveFrom (st : Bool) (lines : List (List Char)) (i : Nat) : Bool :=
  (lines.take i).foldl autoActiveStep st

/-- Some line of `lines` is an unchecked checklist item (and not itself a
section marker) reached while the automated-verification section is
active, the scanner having started in state `st`. -/
def scanWitness (st : Bool) (lines : List (List Char)) : Prop :=
  ∃ i, ∃ h : i < lines.length,
    containsSub autoMarker (lines.get ⟨i, h⟩) = false ∧
    containsSub manualMarker (lines.get ⟨i, h⟩) = false ∧
    autoActiveFrom st lines i = true ∧
    matchesUnchecked (lines.get ⟨i, h⟩) = true

/-- The claim's incompleteness condition: some line of the content is an
unchecked checklist item (and not itself a section marker) reached while
the automated-verification section is active (the scan starts outside any
section). -/
def hasActiveUnchecked (lines : List (List Char)) : Prop :=
  scanWitness false lines

/-- The claims' per-chunk signal alphabet. -/
inductive Signal where
  | SUCCESS
  | MANUAL_VERIFICATION_PENDING
  | NONE
deriving DecidableEq, Repr

/-- Spec-side per-chunk signal classification (first match wins): both
`'Phase'` and `'Complete'` present yields `SUCCESS`; otherwise
`'Ready for Manual Verification'` present yields
`MANUAL_VERIFICATION_PENDING`; otherwise `NONE`. -/
def chunk_signal (t : List Char) : Signal :=
  if containsSub phaseTok t && containsSub completeTok t then .SUCCESS
  else if containsSub readyManualTok t then .MANUAL_VERIFICATION_PENDING
  else .NONE

/-- All text chunks of a message stream, in order: the text of every
`TextBlock` of every `AssistantMessage`. -/
def blockTexts : List Block → List (List Char)
  | [] => []
  | .text t :: bs => t :: blockTexts bs
  | .other :: bs => blockTexts bs

/-- All text chunks of a message stream, in order. -/
def textChunks : List Message → List (List Char)
  | [] => []
  | .assistant blocks :: ms => blockTexts blocks ++ textChunks ms
  | .other :: ms => textChunks ms

/-- The run-window membership test of claim C6/C10, with Python
truthiness: a bound constrains only when it is present and nonzero, and it
is then inclusive. -/
def inWindow (start_phase end_phase : Option Int) (n : Nat) : Bool :=
  (if truthy start_phase then decide (start_phase.getD 0 ≤ (n : Int)) else true) &&
  (if truthy end_phase then decide ((n : Int) ≤ end_phase.getD 0) else true)

/-- The claim C9 shape of an unchecked checklist item line: optional
whitespace, `'-'`, optional whitespace, `'['`, zero or more whitespace
characters, `']'`, then at least one further character. -/
def uncheckedShape (line : List Char) : Prop :=
  ∃ w1 w2 w3 rest : List Char,
    (∀ c ∈ w1, isSpaceC c = true) ∧
    (∀ c ∈ w2, isSpaceC c = true) ∧
    (∀ c ∈ w3, isSpaceC c = true) ∧
    rest ≠ [] ∧
    line = w1 ++ '-' :: (w2 ++ '[' :: (w3 ++ ']' :: rest))

/-! ## Concrete fixtures used by the witnesses and counterexamples -/

/-- A three-phase plan; phase 2 carries an unchecked automated item. -/
def doc3 : List Char :=
  "## Phase 1: A\n## Phase 2: B\n#### Automated Verification:\n- [ ] tests pass\n## Phase 3: C".data

/-- The first parsed phase of `doc3` (empty body, hence completed). -/
def p3_1 : Phase := ⟨1, "A".data, [], true⟩

/-- The second parsed phase of `doc3` (unchecked automated item). -/
def p3_2 : Phase :=
  ⟨2, "B".data, "#### Automated Verification:\n- [ ] tests pass".data, false⟩

/-- The third parsed phase of `doc3` (empty body, hence completed). -/
def p3_3 : Phase := ⟨3, "C".data, [], true⟩

/-- A live environment whose agent emits no success signal for phase 2 and
a `"Phase Complete"` chunk for every other phase. -/
def envFail2 : Env :=
  { dryRun := false, templateOk := true,
    streams := fun p =>
      if p.number == 2 then [Message.other]
      else [Message.assistant [Block.text "Phase Complete".data]] }

/-- A one-phase plan. -/
def docSolo : List Char := "## Phase 1: A".data

/-- A plan whose phases appear out of numeric order. -/
def docSwap : List Char := "## Phase 2: B\n## Phase 1: A".data

/-! ## Lemmas about the phase extractor -/

theorem specPhases_cons (line : List Char) (rest : List (List Char)) :
    specPhases (line :: rest) =
      match headingNumName line with
      | none => specPhases rest
      | some (n, nm) =>
          mkPhase n nm (rest.takeWhile (fun l => !isHeadingLine l)) ::
            specPhases (rest.dropWhile (fun l => !isHeadingLine l)) := by
  rw [specPhases]

theorem isHeadingLine_false {line : List Char} (h : headingNumName line = none) :
    isHeadingLine line = false := by
  simp [isHeadingLine, h]

theorem isHeadingLine_true {line : List Char} {v : Nat × List Char}
    (h : headingNumName line = some v) : isHeadingLine line = true := by
  simp [isHeadingLine, h]

theorem parseGo_some :
    ∀ (ls acc : List (List Char)) (n : Nat) (nm : List Char),
      parseGo (some (n, nm)) acc ls =
        mkPhase n nm (acc ++ ls.takeWhile (fun l => !isHeadingLine l)) ::
          specPhases (ls.dropWhile (fun l => !isHeadingLine l)) := by
  intro ls
  induction ls with
  | nil => intro acc n nm; simp [parseGo, specPhases]
  | cons line rest ih =>
    intro acc n nm
    rcases hh : headingNumName line with _ | ⟨n', nm'⟩
    · have hl : isHeadingLine line = false := isHeadingLine_false hh
      simp only [parseGo, hh]
      rw [ih, List.takeWhile_cons, List.dropWhile_cons]
      simp [hl]
    · have hl : isHeadingLine line = true := isHeadingLine_true hh
      simp only [parseGo, hh, List.singleton_append]
      rw [ih, List.takeWhile_cons, List.dropWhile_cons]
      simp only [hl, Bool.not_true, Bool.false_eq_true, if_false]
      rw [specPhases_cons, hh]
      simp

theorem parseGo_none : ∀ ls : List (List Char), parseGo none [] ls = specPhases ls := by
  intro ls
  induction ls with
  | nil => simp [parseGo, specPhases]
  | cons line rest ih =>
    rcases hh : headingNumName line with _ | ⟨n, nm⟩
    · simp only [parseGo, hh]
      rw [ih, specPhases_cons, hh]
    · simp only [parseGo, hh, List.nil_append]
      rw [parseGo_some, specPhases_cons, hh]
      simp

theorem parseGo_length :
    ∀ (ls acc : List (List Char)) (cur : Option (Nat × List Char)),
      (parseGo cur acc ls).length =
        (if cur.isSome then 1 else 0) + (ls.filter isHeadingLine).length := by
  intro ls
  induction ls with
  | nil =>
    intro acc cur
    rcases cur with _ | ⟨n, nm⟩ <;> simp [parseGo]
  | cons line rest ih =>
    intro acc cur
    rcases hh : headingNumName line with _ | ⟨n, nm⟩
    · rcases cur with _ | ⟨n0, nm0⟩ <;>
        simp [parseGo, hh, ih, List.filter_cons, isHeadingLine_false hh]
    · rcases cur with _ | ⟨n0, nm0⟩ <;>
        simp [parseGo, hh, ih, List.filter_cons, isHeadingLine_true hh] <;> omega

/-- C1: for every document, `parse_plan` returns one phase record per line
matching the `'## Phase <integer>: <label>'` heading regex, in
document-encounter order, and each record's content consists of exactly
the lines strictly between its own heading line and the next matching
heading line (end of document for the last phase) — this is what
`specPhases` computes — so contents are pairwise non-overlapping and the
lines before the first heading belong to no phase. -/
theorem parse_plan_extracts_exactly_the_headed_phases (content : List Char) :
    parse_plan content = specPhases (splitOnNl content) ∧
    (parse_plan content).length =
      ((splitOnNl content).filter isHeadingLine).length := by
  refine ⟨parseGo_none _, ?_⟩
  rw [parse_plan, parseGo_length]
  simp

/-! ## Lemmas about the completion classifier -/

theorem autoActiveFrom_zero (st : Bool) (lines : List (List Char)) :
    autoActiveFrom st lines 0 = st := by
  simp [autoActiveFrom]

theorem autoActiveFrom_succ_cons (st : Bool) (l : List Char)
    (lines : List (List Char)) (j : Nat) :
    autoActiveFrom st (l :: lines) (j + 1) =
      autoActiveFrom (autoActiveStep st l) lines j := by
  simp [autoActiveFrom, List.take_succ_cons]

theorem completedScan_cons (st : Bool) (line : List Char)
    (rest : List (List Char)) :
    completedScan st (line :: rest) =
      if containsSub autoMarker line = true then completedScan true rest
      else if containsSub manualMarker line = true then completedScan false rest
      else if (st && matchesUnchecked line) = true then false
      else completedScan st rest := rfl

/-- Shifting a spec-side witness across the head line. -/
theorem scanWitness_cons (st : Bool) (line : List Char)
    (rest : List (List Char)) :
    scanWitness st (line :: rest) ↔
      (containsSub autoMarker line = false ∧
        containsSub manualMarker line = false ∧
        st = true ∧ matchesUnchecked line = true) ∨
      scanWitness (autoActiveStep st line) rest := by
  constructor
  · rintro ⟨i, hi, h1, h2, h3, h4⟩
    rcases i with _ | j
    · left
      rw [autoActiveFrom_zero] at h3
      exact ⟨by simpa using h1, by simpa using h2, h3, by simpa using h4⟩
    · right
      rw [autoActiveFrom_succ_cons] at h3
      exact ⟨j, by simpa using Nat.lt_of_succ_lt_succ hi, by simpa using h1,
        by simpa using h2, h3, by simpa using h4⟩
  · rintro (⟨h1, h2, h3, h4⟩ | ⟨j, hj, h1, h2, h3, h4⟩)
    · refine ⟨0, by simp, by simpa using h1, by simpa using h2, ?_, by simpa using h4⟩
      rw [autoActiveFrom_zero]
      exact h3
    · refine ⟨j + 1, by simpa using Nat.succ_lt_succ hj, by simpa using h1,
        by simpa using h2, ?_, by simpa using h4⟩
      rw [autoActiveFrom_succ_cons]
      exact h3

/-- The scanner of `_is_phase_completed` reports `False` exactly when a
spec-side witness exists. -/
theorem completedScan_false_iff (lines : List (List Char)) :
    ∀ st : Bool, completedScan st lines = false ↔ scanWitness st lines := by
  induction lines with
  | nil =>
    intro st
    simp [completedScan, scanWitness]
  | cons line rest ih =>
    intro st
    rw [completedScan_cons, scanWitness_cons]
    by_cases ha : containsSub autoMarker line = true
    · rw [if_pos ha, ih]
      have hstep : autoActiveStep st line = true := by simp [autoActiveStep, ha]
      rw [hstep]
      simp [ha]
    · rw [if_neg ha]
      have ha' : containsSub autoMarker line = false := Bool.of_not_eq_true ha
      by_cases hm : containsSub manualMarker line = true
      · rw [if_pos hm, ih]
        have hstep : autoActiveStep st line = false := by simp [autoActiveStep, ha, hm]
        rw [hstep]
        simp [hm]
      · have hm' : containsSub manualMarker line = false := Bool.of_not_eq_true hm
        have hstep : autoActiveStep st line = st := by simp [autoActiveStep, ha, hm]
        rw [if_neg hm, hstep]
        by_cases hu : (st && matchesUnchecked line) = true
        · rw [if_pos hu]
          rw [Bool.and_eq_true] at hu
          simp [ha', hm', hu.1, hu.2]
        · rw [if_neg hu, ih]
          rw [Bool.and_eq_true] at hu
          have : ¬(st = true ∧ matchesUnchecked line = true) := hu
          constructor
          · intro h
            exact Or.inr h
          · rintro (⟨_, _, h3, h4⟩ | h)
            · exact absurd ⟨h3, h4⟩ this
            · exact h

/-- C2: `_is_phase_completed` returns `False` exactly when the line-by-line
scan meets an unchecked checklist item while the automated-verification
section is active — activated by a line containing
`'#### Automated Verification:'` and deactivated by a line containing
`'#### Manual Verification:'` (such marker lines act as markers, not as
items).  In particular an automated section with one `- [ ]` item is
incomplete, the same content with `[x]` instead is complete, and content
with no automated-verification section at all is complete. -/
theorem is_phase_completed_false_iff_active_unchecked (content : List Char) :
    (is_phase_completed content = false ↔ hasActiveUnchecked (splitOnNl content)) ∧
    is_phase_completed ("#### Automated Verification:\n- [ ] tests pass".data) = false ∧
    is_phase_completed ("#### Automated Verification:\n- [x] tests pass".data) = true ∧
    is_phase_completed ("no verification section here\n- [ ] item".data) = true := by
  refine ⟨completedScan_false_iff _ _, by decide, by decide, by decide⟩

/-! ## Lemmas about the signal classifier and the phase driver -/

theorem chunk_signal_ne_none_iff (t : List Char) :
    chunk_signal t ≠ Signal.NONE ↔
      ((containsSub phaseTok t && containsSub completeTok t) = true ∨
        containsSub readyManualTok t = true) := by
  unfold chunk_signal
  by_cases h1 : (containsSub phaseTok t && containsSub completeTok t) = true
  · simp [h1]
  · by_cases h2 : containsSub readyManualTok t = true
    · simp [h1, h2]
    · simp [h1, h2]

theorem blockStep_true_iff (s : Bool) (b : Block) :
    blockStep s b = true ↔
      (s = true ∨ ∃ t ∈ blockTexts [b], chunk_signal t ≠ Signal.NONE) := by
  rcases b with t | _
  · unfold blockStep
    by_cases h1 : (containsSub phaseTok t && containsSub completeTok t) = true
    · simp [blockTexts, h1, chunk_signal_ne_none_iff]
      rw [Bool.and_eq_true] at h1
      exact Or.inr (Or.inl h1)
    · by_cases h2 : containsSub readyManualTok t = true
      · simp [blockTexts, h1, h2, chunk_signal_ne_none_iff]
      · simp [blockTexts, h1, h2, chunk_signal_ne_none_iff]
        exact fun ha hb => absurd (by simp [ha, hb]) h1
  · simp [blockStep, blockTexts]

theorem foldl_blockStep_true_iff (blocks : List Block) :
    ∀ s : Bool,
      blocks.foldl blockStep s = true ↔
        (s = true ∨ ∃ t ∈ blockTexts blocks, chunk_signal t ≠ Signal.NONE) := by
  induction blocks with
  | nil => intro s; simp [blockTexts]
  | cons b bs ih =>
    intro s
    rw [List.foldl_cons, ih]
    rw [blockStep_true_iff]
    rcases b with t | _
    · constructor
      · rintro ((hs | ⟨u, hu, hp⟩) | ⟨u, hu, hp⟩)
        · exact Or.inl hs
        · have he : u = t := by simpa [blockTexts] using hu
          subst he
          exact Or.inr ⟨u, by simp [blockTexts], hp⟩
        · exact Or.inr ⟨u, by simp [blockTexts, hu], hp⟩
      · rintro (hs | ⟨u, hu, hp⟩)
        · exact Or.inl (Or.inl hs)
        · rcases List.mem_cons.mp (by simpa [blockTexts] using hu) with he | hu'
          · subst he
            exact Or.inl (Or.inr ⟨u, by simp [blockTexts], hp⟩)
          · exact Or.inr ⟨u, hu', hp⟩
    · simp [blockTexts]

theorem foldl_msgStep_true_iff (msgs : List Message) :
    ∀ s : Bool,
      msgs.foldl msgStep s = true ↔
        (s = true ∨ ∃ t ∈ textChunks msgs, chunk_signal t ≠ Signal.NONE) := by
  induction msgs with
  | nil => intro s; simp [textChunks]
  | cons m ms ih =>
    intro s
    rw [List.foldl_cons, ih]
    rcases m with blocks | _
    · rw [show msgStep s (Message.assistant blocks) = blocks.foldl blockStep s from rfl,
        foldl_blockStep_true_iff]
      constructor
      · rintro ((hs | ⟨t, ht, hp⟩) | ⟨t, ht, hp⟩)
        · exact Or.inl hs
        · exact Or.inr ⟨t, by simp [textChunks, ht], hp⟩
        · exact Or.inr ⟨t, by simp [textChunks, ht], hp⟩
      · rintro (hs | ⟨t, ht, hp⟩)
        · exact Or.inl (Or.inl hs)
        · have hmem : t ∈ blockTexts blocks ++ textChunks ms := by
            simpa [textChunks] using ht
          rcases List.mem_append.mp hmem with h | h
          · exact Or.inl (Or.inr ⟨t, h, hp⟩)
          · exact Or.inr ⟨t, h, hp⟩
    · simp [msgStep, textChunks]

theorem streamSuccess_true_iff (msgs : List Message) :
    streamSuccess msgs = true ↔
      ∃ t ∈ textChunks msgs, chunk_signal t ≠ Signal.NONE := by
  rw [streamSuccess, foldl_msgStep_true_iff]
  simp

/-- C3: a chunk yields `SUCCESS` when it contains both `'Phase'` and
`'Complete'`, `MANUAL_VERIFICATION_PENDING` when it contains
`'Ready for Manual Verification'` (both are treated as phase
satisfaction), and otherwise contributes nothing; for a non-completed
phase in live mode the driver's verdict is success iff some chunk of the
stream yields a non-`NONE` signal, and failure iff every chunk yields
`NONE`. -/
theorem implement_phase_verdict_from_stream (stream : List Message)
    (phase : Phase) (h : phase.is_completed = false) :
    implement_phase false true stream phase =
      some ⟨streamSuccess stream, 1, 1⟩ ∧
    (streamSuccess stream = true ↔
      ∃ t ∈ textChunks stream, chunk_signal t ≠ Signal.NONE) ∧
    (streamSuccess stream = false ↔
      ∀ t ∈ textChunks stream, chunk_signal t = Signal.NONE) ∧
    (∀ t : List Char, (containsSub phaseTok t && containsSub completeTok t) = true →
      chunk_signal t = Signal.SUCCESS) ∧
    (∀ t : List Char, (containsSub phaseTok t && containsSub completeTok t) = false →
      containsSub readyManualTok t = true →
      chunk_signal t = Signal.MANUAL_VERIFICATION_PENDING) ∧
    (∀ t : List Char, (containsSub phaseTok t && containsSub completeTok t) = false →
      containsSub readyManualTok t = false →
      chunk_signal t = Signal.NONE) := by
  refine ⟨by simp [implement_phase, h], streamSuccess_true_iff stream, ?_, ?_, ?_, ?_⟩
  · constructor
    · intro hf t ht
      by_contra hne
      have : streamSuccess stream = true :=
        (streamSuccess_true_iff stream).mpr ⟨t, ht, hne⟩
      rw [this] at hf
      cases hf
    · intro hall
      by_contra hne
      have hss : streamSuccess stream = true := by
        cases hval : streamSuccess stream
        · exact absurd hval hne
        · rfl
      rcases (streamSuccess_true_iff stream).mp hss with ⟨t, ht, hsig⟩
      exact hsig (hall t ht)
  · intro t h1
    simp [chunk_signal, h1]
  · intro t h1 h2
    simp [chunk_signal, h1, h2]
  · intro t h1 h2
    simp [chunk_signal, h1, h2]

/-- Witness for C3 at a concrete non-completed phase and a one-chunk
stream containing `"Phase 1 Complete"`. -/
theorem implement_phase_verdict_from_stream_witness :
    (Phase.mk 2 [] [] false).is_completed = false ∧
    implement_phase false true
        [Message.assistant [Block.text "Phase 1 Complete".data]]
        (Phase.mk 2 [] [] false) = some ⟨true, 1, 1⟩ :=
  ⟨rfl,
    ((implement_phase_verdict_from_stream
        [Message.assistant [Block.text "Phase 1 Complete".data]]
        (Phase.mk 2 [] [] false) rfl).1).trans (by decide)⟩

/-! ## Lemmas about the run controller -/

theorem runLoop_all_success (env : Env) :
    ∀ ps : List Phase, (∀ p ∈ ps, driverVerdict env p = true) →
      runLoop env ps = ps := by
  intro ps
  induction ps with
  | nil => intro _; rfl
  | cons p rest ih =>
    intro h
    have hp := h p (by simp)
    unfold driverVerdict at hp
    rcases hres : implement_phase env.dryRun env.templateOk (env.streams p) p with _ | r
    · rw [hres] at hp
      simp at hp
    · rw [hres] at hp
      simp at hp
      simp only [runLoop, hres]
      rw [if_pos hp, ih (fun q hq => h q (by simp [hq]))]

theorem runLoop_stops_at_failure (env : Env) :
    ∀ (l1 : List Phase) (p : Phase) (l2 : List Phase) (r : DriverResult),
      (∀ q ∈ l1, driverVerdict env q = true) →
      implement_phase env.dryRun env.templateOk (env.streams p) p = some r →
      r.success = false →
      runLoop env (l1 ++ p :: l2) = l1 ++ [p] := by
  intro l1
  induction l1 with
  | nil =>
    intro p l2 r _ hres hf
    simp [runLoop, hres, hf]
  | cons q l1 ih =>
    intro p l2 r h hres hf
    have hq := h q (by simp)
    unfold driverVerdict at hq
    rcases hqres : implement_phase env.dryRun env.templateOk (env.streams q) q with _ | rq
    · rw [hqres] at hq
      simp at hq
    · rw [hqres] at hq
      simp at hq
      rw [show (q :: l1) ++ p :: l2 = q :: (l1 ++ p :: l2) from rfl]
      simp only [runLoop, hqres]
      rw [if_pos hq, ih p l2 r (fun x hx => h x (by simp [hx])) hres hf]
      rfl

theorem filteredPhases_eq_filter (content : List Char) (s e : Option Int) :
    filteredPhases content s e =
      (parse_plan content).filter (fun p => inWindow s e p.number) := by
  unfold filteredPhases inWindow
  by_cases hs : truthy s = true <;> by_cases he : truthy e = true <;>
    simp [hs, he, Bool.and_comm, List.filter_filter]

theorem run_full_eq_filter (env : Env) (content : List Char) (s e : Option Int)
    (hall : ∀ p : Phase, driverVerdict env p = true) :
    run_full_implementation env content s e =
      (parse_plan content).filter (fun p => inWindow s e p.number) := by
  unfold run_full_implementation
  by_cases h0 : parse_plan content = []
  · simp [h0]
  · rw [if_neg h0, filteredPhases_eq_filter,
      runLoop_all_success env _ (fun p _ => hall p)]

theorem dryEnv_all_success : ∀ p : Phase, driverVerdict dryEnv p = true := by
  intro p
  unfold driverVerdict implement_phase dryEnv
  rcases h : p.is_completed with _ | _ <;> simp [h]

/-- C4: if the driver succeeds on every phase of a prefix of the filtered
list and returns a failure verdict on the next phase `p`, the controller
invokes the driver exactly for that prefix and `p`: no phase after `p` in
the filtered list is ever driven (and so the agent is never contacted for
it). -/
theorem run_stops_at_first_failure (env : Env) (content : List Char)
    (s e : Option Int) (l1 : List Phase) (p : Phase) (l2 : List Phase)
    (r : DriverResult)
    (hsplit : filteredPhases content s e = l1 ++ p :: l2)
    (hok : ∀ q ∈ l1, driverVerdict env q = true)
    (hres : implement_phase env.dryRun env.templateOk (env.streams p) p = some r)
    (hfail : r.success = false) :
    run_full_implementation env content s e = l1 ++ [p] := by
  have hne : ¬(parse_plan content = []) := by
    intro h0
    rw [filteredPhases_eq_filter, h0] at hsplit
    simp at hsplit
  unfold run_full_implementation
  rw [if_neg hne, hsplit, runLoop_stops_at_failure env l1 p l2 r hok hres hfail]

/-- Witness for C4: on the three-phase plan `doc3`, with an agent that
yields no signal for phase 2, the run drives phases 1 and 2 only —
phase 3 is never driven. -/
theorem run_stops_at_first_failure_witness :
    filteredPhases doc3 none none = [p3_1] ++ p3_2 :: [p3_3] ∧
    (∀ q ∈ [p3_1], driverVerdict envFail2 q = true) ∧
    implement_phase envFail2.dryRun envFail2.templateOk
      (envFail2.streams p3_2) p3_2 = some ⟨false, 1, 1⟩ ∧
    run_full_implementation envFail2 doc3 none none = [p3_1, p3_2] :=
  ⟨by decide, by decide, by decide,
    run_stops_at_first_failure envFail2 doc3 none none [p3_1] p3_2 [p3_3]
      ⟨false, 1, 1⟩ (by decide) (by decide) (by decide) rfl⟩

/-- C5: a phase whose `is_completed` flag is set is short-circuited to the
success verdict with zero agent calls and zero template loads, in every
mode. -/
theorem implement_phase_skips_completed (dryRun templateOk : Bool)
    (stream : List Message) (phase : Phase) (h : phase.is_completed = true) :
    implement_phase dryRun templateOk stream phase = some ⟨true, 0, 0⟩ := by
  simp [implement_phase, h]

/-- Witness for C5 at a concrete completed phase in live mode with no
template on disk. -/
theorem implement_phase_skips_completed_witness :
    (Phase.mk 1 [] [] true).is_completed = true ∧
    implement_phase false false [Message.assistant [Block.text "x".data]]
      (Phase.mk 1 [] [] true) = some ⟨true, 0, 0⟩ :=
  ⟨rfl, implement_phase_skips_completed false false _ _ rfl⟩

/-- C8: in dry-run mode a non-completed phase is reported successful with
zero agent calls and zero template loads; in particular a missing template
(`templateOk = false`) never raises. -/
theorem implement_phase_dry_run_short_circuits (templateOk : Bool)
    (stream : List Message) (phase : Phase) (h : phase.is_completed = false) :
    implement_phase true templateOk stream phase = some ⟨true, 0, 0⟩ := by
  simp [implement_phase, h]

/-- Witness for C8 at a concrete non-completed phase with no template. -/
theorem implement_phase_dry_run_short_circuits_witness :
    (Phase.mk 1 [] [] false).is_completed = false ∧
    implement_phase true false [] (Phase.mk 1 [] [] false) = some ⟨true, 0, 0⟩ :=
  ⟨rfl, implement_phase_dry_run_short_circuits false [] _ rfl⟩

/-- C6 counterexample: with `end_phase = 0` the claim predicts that no
phase executes (no number `n` satisfies `n ≤ 0`), but the zero bound is
falsy and filters nothing: on a one-phase plan, phase 1 still executes
although `¬(1 ≤ 0)`. -/
theorem run_window_end_zero_counterexample :
    run_full_implementation dryEnv docSolo none (some 0) =
      [⟨1, "A".data, [], true⟩] ∧
    ¬((1 : Int) ≤ 0) :=
  ⟨by decide, by decide⟩

/-- C6 (amended): when every phase succeeds, the controller executes
exactly the parsed phases whose `number` lies in the run window, a bound
constraining (inclusively) only when present *and nonzero* — a `0` bound,
like an absent one, imposes no constraint. -/
theorem run_window_filters_by_truthy_bounds (env : Env) (content : List Char)
    (s e : Option Int) (hall : ∀ p : Phase, driverVerdict env p = true) :
    run_full_implementation env content s e =
      (parse_plan content).filter (fun p => inWindow s e p.number) :=
  run_full_eq_filter env content s e hall

/-- Witness for C6: `--start-phase 2 --end-phase 2` on the three-phase
plan `doc3` executes exactly phase 2. -/
theorem run_window_filters_by_truthy_bounds_witness :
    (∀ p : Phase, driverVerdict dryEnv p = true) ∧
    run_full_implementation dryEnv doc3 (some 2) (some 2) = [p3_2] :=
  ⟨dryEnv_all_success,
    (run_window_filters_by_truthy_bounds dryEnv doc3 (some 2) (some 2)
      dryEnv_all_success).trans (by decide)⟩

/-- C7 counterexample: on a plan listing phase 2 before phase 1, the
controller executes the phases in document order `[2, 1]`, not in
ascending numeric order `[1, 2]`. -/
theorem run_order_counterexample :
    (run_full_implementation dryEnv docSwap none none).map Phase.number = [2, 1] ∧
    (run_full_implementation dryEnv docSwap none none).map Phase.number ≠ [1, 2] :=
  ⟨by decide, by decide⟩

/-- C7 (amended): when every phase succeeds and no bounds are given, the
controller executes exactly the parsed phase list in document-encounter
order — it never sorts by the `number` field. -/
theorem run_executes_in_encounter_order (env : Env) (content : List Char)
    (hall : ∀ p : Phase, driverVerdict env p = true) :
    run_full_implementation env content none none = parse_plan content := by
  rw [run_full_eq_filter env content none none hall]
  simp [inWindow, truthy]

/-- Witness for C7 on the out-of-order plan `docSwap`. -/
theorem run_executes_in_encounter_order_witness :
    (∀ p : Phase, driverVerdict dryEnv p = true) ∧
    run_full_implementation dryEnv docSwap none none =
      [⟨2, "B".data, [], true⟩, ⟨1, "A".data, [], true⟩] :=
  ⟨dryEnv_all_success,
    (run_executes_in_encounter_order dryEnv docSwap dryEnv_all_success).trans
      (by decide)⟩

/-- C10: a phase-range bound equal to `0` is treated as absent (presence
is tested by truthiness): a run with bound `some 0` equals the run with
that bound omitted, on either side; and in dry-run mode `end_phase = 0`
leaves every parsed phase executing rather than none. -/
theorem run_window_zero_bound_is_absent (env : Env) (content : List Char)
    (s e : Option Int) :
    run_full_implementation env content s (some 0) =
      run_full_implementation env content s none ∧
    run_full_implementation env content (some 0) e =
      run_full_implementation env content none e ∧
    run_full_implementation dryEnv content none (some 0) = parse_plan content := by
  refine ⟨rfl, rfl, ?_⟩
  rw [run_full_eq_filter dryEnv content none (some 0) dryEnv_all_success]
  simp [inWindow, truthy]

/-! ## Lemmas about the unchecked-item regex -/

theorem expectChar_eq_some {c : Char} {s t : List Char}
    (h : expectChar c s = some t) : s = c :: t := by
  rcases s with _ | ⟨x, xs⟩
  · simp [expectChar] at h
  · simp only [expectChar] at h
    by_cases hx : x = c
    · rw [if_pos hx] at h
      injection h with h'
      rw [hx, h']
    · rw [if_neg hx] at h
      cases h

theorem dropWhile_spaces {w t : List Char} (hw : ∀ x ∈ w, isSpaceC x = true)
    {c : Char} (hc : isSpaceC c = false) :
    List.dropWhile isSpaceC (w ++ c :: t) = c :: t := by
  induction w with
  | nil => simp [List.dropWhile_cons, hc]
  | cons a w ih =>
    have ha : isSpaceC a = true := hw a (by simp)
    simp only [List.cons_append, List.dropWhile_cons, ha, if_true]
    exact ih (fun x hx => hw x (by simp [hx]))

theorem expectChar_cons_self (c : Char) (t : List Char) :
    expectChar c (c :: t) = some t := by
  simp [expectChar]

/-- Evaluating the unchecked-item matcher on a line of the canonical
shape: the result depends only on what follows the checkbox. -/
theorem matchesUnchecked_eval (w1 w2 w3 rest : List Char)
    (hw1 : ∀ c ∈ w1, isSpaceC c = true) (hw2 : ∀ c ∈ w2, isSpaceC c = true)
    (hw3 : ∀ c ∈ w3, isSpaceC c = true) :
    matchesUnchecked (w1 ++ '-' :: (w2 ++ '[' :: (w3 ++ ']' :: rest))) =
      rest.any (fun c => c != '\n') := by
  unfold matchesUnchecked
  rw [dropWhile_spaces hw1 (by decide), expectChar_cons_self, Option.elim_some,
    dropWhile_spaces hw2 (by decide), expectChar_cons_self, Option.elim_some,
    dropWhile_spaces hw3 (by decide), expectChar_cons_self, Option.elim_some]

theorem matchesUnchecked_true_iff_shape (line : List Char) (hnl : '\n' ∉ line) :
    matchesUnchecked line = true ↔ uncheckedShape line := by
  constructor
  · intro h
    unfold matchesUnchecked at h
    rcases h1 : expectChar '-' (line.dropWhile isSpaceC) with _ | r1
    · rw [h1, Option.elim_none] at h
      simp at h
    rw [h1, Option.elim_some] at h
    rcases h2 : expectChar '[' (r1.dropWhile isSpaceC) with _ | r2
    · rw [h2, Option.elim_none] at h
      simp at h
    rw [h2, Option.elim_some] at h
    rcases h3 : expectChar ']' (r2.dropWhile isSpaceC) with _ | r3
    · rw [h3, Option.elim_none] at h
      simp at h
    rw [h3, Option.elim_some] at h
    have e1 : line.dropWhile isSpaceC = '-' :: r1 := expectChar_eq_some h1
    have e2 : r1.dropWhile isSpaceC = '[' :: r2 := expectChar_eq_some h2
    have e3 : r2.dropWhile isSpaceC = ']' :: r3 := expectChar_eq_some h3
    refine ⟨line.takeWhile isSpaceC, r1.takeWhile isSpaceC, r2.takeWhile isSpaceC,
      r3, fun c hc => List.mem_takeWhile_imp hc, fun c hc => List.mem_takeWhile_imp hc,
      fun c hc => List.mem_takeWhile_imp hc, ?_, ?_⟩
    · intro hr3
      rw [hr3] at h
      simp at h
    · conv_lhs => rw [← List.takeWhile_append_dropWhile isSpaceC line, e1]
      conv_lhs => rw [← List.takeWhile_append_dropWhile isSpaceC r1, e2]
      conv_lhs => rw [← List.takeWhile_append_dropWhile isSpaceC r2, e3]
  · rintro ⟨w1, w2, w3, rest, hw1, hw2, hw3, hrest, hline⟩
    subst hline
    rw [matchesUnchecked_eval w1 w2 w3 rest hw1 hw2 hw3]
    rcases rest with _ | ⟨c, cs⟩
    · exact absurd rfl hrest
    · have hc : c ≠ '\n' := by
        intro hcnl
        apply hnl
        subst hcnl
        simp
      simp [hc]

/-- C9 counterexample: the exact line `'- []'` (nothing after the
brackets) does not match the unchecked-item regex — `(.+)` needs at least
one further character — so inside an active automated-verification
section it does not mark the phase incomplete. -/
theorem unchecked_item_needs_text_counterexample :
    is_phase_completed ("#### Automated Verification:\n- []".data) = true ∧
    matchesUnchecked ("- []".data) = false :=
  ⟨by decide, by decide⟩

/-- C9 (amended): a line is recognised as an unchecked checklist item
exactly when it is optional whitespace, `'-'`, optional whitespace, `'['`,
zero or more whitespace characters, `']'`, and at least one further
character; consequently `'- []'` *followed by item text* (no space between
the brackets) marks an active automated section incomplete, while a line
ending at the checkbox (whatever whitespace precedes it) never matches,
and `'- [ ]'` with nothing after the checkbox leaves the phase complete. -/
theorem unchecked_item_line_shape (line : List Char) (hnl : '\n' ∉ line)
    (w1 w2 w3 : List Char)
    (hw1 : ∀ c ∈ w1, isSpaceC c = true) (hw2 : ∀ c ∈ w2, isSpaceC c = true)
    (hw3 : ∀ c ∈ w3, isSpaceC c = true) :
    (matchesUnchecked line = true ↔ uncheckedShape line) ∧
    matchesUnchecked (w1 ++ '-' :: (w2 ++ '[' :: (w3 ++ [']']))) = false ∧
    is_phase_completed ("#### Automated Verification:\n- [] run tests".data) = false ∧
    is_phase_completed ("#### Automated Verification:\n- [ ]".data) = true := by
  refine ⟨matchesUnchecked_true_iff_shape line hnl, ?_, by decide, by decide⟩
  rw [matchesUnchecked_eval w1 w2 w3 [] hw1 hw2 hw3]
  rfl

/-- Witness for C9 at the line `'- [] run tests'` and at the checkbox-only
line `'- [ ]'` (taking `w1 = []`, `w2 = [' ']`, `w3 = [' ']`). -/
theorem unchecked_item_line_shape_witness :
    ('\n' ∉ "- [] run tests".data) ∧
    ((matchesUnchecked "- [] run tests".data = true ↔
        uncheckedShape "- [] run tests".data) ∧
      matchesUnchecked ([] ++ '-' :: ([' '] ++ '[' :: ([' '] ++ [']']))) = false ∧
      is_phase_completed ("#### Automated Verification:\n- [] run tests".data) = false ∧
      is_phase_completed ("#### Automated Verification:\n- [ ]".data) = true) :=
  ⟨by decide,
    unchecked_item_line_shape "- [] run tests".data (by decide) [] [' '] [' ']
      (by decide) (by decide) (by decide)⟩

end AutoImplement
